import Mathlib

/-!
Verification of the audio chunking / validation / delivery pipeline of the
MusicRemovalExtension repository.

Shallow embedding conventions:
* JS numbers carrying audio samples, timestamps and levels are modelled as `ℚ`
  (the code only ever compares and adds them; `NaN` has no counterpart in the
  model, so the validator's `isNaN` test is the always-false branch here).
* `Math.sqrt` is modelled as `Real.sqrt`, so the RMS level lives in `ℝ`.
* `Float32Array` / JS arrays become `List ℚ`; `array.shift() || 0.0` becomes
  reading with default `0`.
* A JS `TypeError` (indexing a missing buffer) is modelled by returning `none`.
-/

namespace Capture

/-- State of a `CaptureProcessor` instance
(`src/audio-input/audio-worklets/capture-processor.js`).
`currentTime` models the ambient AudioWorklet clock read by the processor. -/
structure CState where
  chunkSize : ℕ
  sampleRate : ℕ
  chunkBuffer : List (List ℚ)
  sequenceNumber : ℕ
  totalSamplesProcessed : ℕ
  startTime : ℚ
  lastChunkTime : ℚ
  currentTime : ℚ
  deriving Repr

/-- The constructor of `CaptureProcessor`: empty buffers, `sequenceNumber = 0`,
configuration taken from the processor options (defaults 2048 / 48000). -/
def initState (chunkSize sampleRate : ℕ) (t0 : ℚ) : CState :=
  { chunkSize := chunkSize
    sampleRate := sampleRate
    chunkBuffer := []
    sequenceNumber := 0
    totalSamplesProcessed := 0
    startTime := t0
    lastChunkTime := 0
    currentTime := t0 }

/-- `calculateRMS`: `sqrt(sumOfSquares / samples.length)`. -/
noncomputable def calculateRMS (samples : List ℚ) : ℝ :=
  Real.sqrt ((((samples.map (fun s => s * s)).sum : ℚ) : ℝ) / (samples.length : ℝ))

/-- `calculatePeak`: running maximum of `|sample|`, starting from `0`. -/
def calculatePeak (samples : List ℚ) : ℚ :=
  samples.foldl (fun peak s => if |s| > peak then |s| else peak) 0

/-- The chunk object built by `sendAudioChunk` (the `AudioChunkContract`
produced on the worklet side). -/
structure CChunk where
  samples : List (List ℚ)
  sampleRate : ℕ
  channels : ℕ
  frameLength : ℕ
  timestamp : ℚ
  chunkId : String
  sequenceNumber : ℕ
  rmsLevel : ℝ
  peakLevel : ℚ

noncomputable instance : Inhabited CChunk :=
  ⟨{ samples := [], sampleRate := 0, channels := 0, frameLength := 0, timestamp := 0,
     chunkId := "", sequenceNumber := 0, rmsLevel := 0, peakLevel := 0 }⟩

/-- The per-channel extraction loop of `sendAudioChunk`:
`channelSamples[i] = this.chunkBuffer[ch].shift() || 0.0` run `chunkSize`
times, i.e. the first `n` entries of the buffer padded with `0.0`. -/
def extractChannel (buf : List ℚ) (n : ℕ) : List ℚ :=
  (List.range n).map (fun i => buf.getD i 0)

/-- `chunkId` construction: `"chunk_" + timestamp + "_" + randomId`.  The
random suffix is irrelevant to every property proved here and is elided. -/
def mkChunkId (ts : ℚ) : String :=
  "chunk_" ++ toString ts

/-- `sendAudioChunk`: early return (no emission, no state change) when no
buffer exists; otherwise extract `chunkSize` samples per channel, compute the
metrics over the first channel, emit the chunk and bump `sequenceNumber`. -/
noncomputable def sendAudioChunk (s : CState) : CState × Option CChunk :=
  if s.chunkBuffer.length = 0 then (s, none)
  else
    let samples := s.chunkBuffer.map (fun buf => extractChannel buf s.chunkSize)
    let ts := s.currentTime * 1000
    let c : CChunk :=
      { samples := samples
        sampleRate := s.sampleRate
        channels := s.chunkBuffer.length
        frameLength := s.chunkSize
        timestamp := ts
        chunkId := mkChunkId ts
        sequenceNumber := s.sequenceNumber
        rmsLevel := calculateRMS (samples.getD 0 [])
        peakLevel := calculatePeak (samples.getD 0 []) }
    ({ s with
        chunkBuffer := s.chunkBuffer.map (fun buf => buf.drop s.chunkSize)
        sequenceNumber := s.sequenceNumber + 1
        lastChunkTime := s.currentTime }, some c)

/-- The per-channel push loop of `accumulateAudio`: buffer `ch` (counting from
`k`) receives the `frameLength` samples of `channelData[ch]` appended at its
end; buffers beyond the incoming channel count are left untouched. -/
def appendFrames (channelData : List (List ℚ)) (frameLength : ℕ) :
    ℕ → List (List ℚ) → List (List ℚ)
  | _, [] => []
  | ch, buf :: rest =>
    (if ch < channelData.length then
        buf ++ (List.range frameLength).map (fun i => (channelData.getD ch []).getD i 0)
      else buf) :: appendFrames channelData frameLength (ch + 1) rest

/-- `accumulateAudio`: initializes one empty buffer per channel on first
audio, then appends each incoming channel's `frameLength` samples to the
matching buffer.  When an incoming channel has no buffer
(`this.chunkBuffer[ch]` is `undefined` because the channel count grew
mid-stream) the `push` throws a `TypeError`, modelled as `none`; an empty
`channelData` likewise throws on `channelData[0].length`. -/
def accumulateAudio (s : CState) (channelData : List (List ℚ)) : Option CState :=
  match channelData with
  | [] => none
  | ch0 :: _ =>
    let frameLength := ch0.length
    let channelCount := channelData.length
    let bufs0 := if s.chunkBuffer.length = 0
      then List.replicate channelCount ([] : List ℚ) else s.chunkBuffer
    if channelCount ≤ bufs0.length then
      some { s with
        chunkBuffer := appendFrames channelData frameLength 0 bufs0
        totalSamplesProcessed := s.totalSamplesProcessed + frameLength }
    else none

/-- `shouldSendChunk`: buffers exist and the first channel holds at least
`chunkSize` samples. -/
def shouldSendChunk (s : CState) : Bool :=
  decide (0 < s.chunkBuffer.length) && decide (s.chunkSize ≤ (s.chunkBuffer.getD 0 []).length)

/-- `process`: one real-time callback.  `none` input models
`inputs[0] === undefined`; a zero-channel input is the `input.length === 0`
branch.  Both return `true` without touching the state.  Otherwise the frame
is accumulated and at most one chunk is emitted.  The `Bool` is the callback's
return value (keep-alive), the `Option CChunk` the chunk posted, if any. -/
noncomputable def process (s : CState) (input : Option (List (List ℚ))) :
    Option (Bool × CState × Option CChunk) :=
  match input with
  | none => some (true, s, none)
  | some channelData =>
    if channelData.length = 0 then some (true, s, none)
    else
      match accumulateAudio s channelData with
      | none => none
      | some s1 =>
        if shouldSendChunk s1 then
          let r := sendAudioChunk s1
          some (true, r.1, r.2)
        else some (true, s1, none)

/-- A whole session: fold `process` over a list of callback inputs, collecting
the emitted chunks in emission order.  `none` propagates a thrown error. -/
noncomputable def runProcess : CState → List (Option (List (List ℚ))) →
    Option (CState × List CChunk)
  | s, [] => some (s, [])
  | s, input :: rest =>
    (process s input).bind (fun r =>
      (runProcess r.2.1 rest).map (fun q => (q.1, r.2.2.toList ++ q.2)))

end Capture

/-- C1: every chunk emitted by `sendAudioChunk` has one sample sequence per
declared channel and every sequence has length exactly `chunkSize`
(= the chunk's `frameLength`). -/
theorem sendAudioChunk_shape (s : Capture.CState) (c : Capture.CChunk)
    (h : (Capture.sendAudioChunk s).2 = some c) :
    c.channels = c.samples.length ∧ c.frameLength = s.chunkSize ∧
      ∀ seq ∈ c.samples, seq.length = s.chunkSize := by
  unfold Capture.sendAudioChunk at h
  by_cases hb : s.chunkBuffer.length = 0
  · simp [hb] at h
  · simp only [hb, if_false] at h
    obtain rfl : _ = c := Option.some.inj h
    refine ⟨by simp, rfl, ?_⟩
    intro seq hseq
    simp only [List.mem_map] at hseq
    obtain ⟨buf, _, rfl⟩ := hseq
    simp [Capture.extractChannel]

namespace Capture

instance : Inhabited CState := ⟨initState 0 0 0⟩

/-- A concrete worklet state: chunk size 2, one channel holding 3 samples. -/
def w1State : CState :=
  { chunkSize := 2
    sampleRate := 48000
    chunkBuffer := [[1/2, -1/2, 1/4]]
    sequenceNumber := 5
    totalSamplesProcessed := 3
    startTime := 0
    lastChunkTime := 0
    currentTime := 1 }

/-- The chunk `sendAudioChunk` emits from `w1State`. -/
noncomputable def w1Chunk : CChunk := ((sendAudioChunk w1State).2).getD default

end Capture

/-- Witness for C1: the emitted chunk of a concrete state has matching channel
count and per-channel length. -/
theorem sendAudioChunk_shape_witness :
    Capture.w1Chunk.channels = Capture.w1Chunk.samples.length ∧
      Capture.w1Chunk.frameLength = Capture.w1State.chunkSize ∧
      ∀ seq ∈ Capture.w1Chunk.samples, seq.length = Capture.w1State.chunkSize :=
  sendAudioChunk_shape Capture.w1State Capture.w1Chunk rfl

namespace Capture

/-- `accumulateAudio` never touches the sequence counter. -/
theorem accumulateAudio_sequenceNumber (s : CState) (cd : List (List ℚ)) (s1 : CState)
    (h : accumulateAudio s cd = some s1) : s1.sequenceNumber = s.sequenceNumber := by
  match cd with
  | [] => simp [accumulateAudio] at h
  | ch0 :: rest =>
    simp [accumulateAudio] at h
    obtain ⟨-, rfl⟩ := h
    rfl

/-- `sendAudioChunk` advances the sequence counter by the number of chunks it
emits, and the emitted chunk carries the pre-increment counter. -/
theorem sendAudioChunk_sequenceNumber (s : CState) :
    (sendAudioChunk s).1.sequenceNumber
        = s.sequenceNumber + ((sendAudioChunk s).2.toList.length) ∧
      (sendAudioChunk s).2.toList.map (fun c => c.sequenceNumber)
        = List.range' s.sequenceNumber ((sendAudioChunk s).2.toList.length) := by
  unfold sendAudioChunk
  by_cases hb : s.chunkBuffer.length = 0 <;> simp [hb, List.range']

/-- One `process` callback advances the sequence counter by the number of
emitted chunks, whose sequence numbers start at the old counter. -/
theorem process_sequenceNumber (s : CState) (input : Option (List (List ℚ)))
    (b : Bool) (s1 : CState) (oc : Option CChunk)
    (h : process s input = some (b, s1, oc)) :
    s1.sequenceNumber = s.sequenceNumber + oc.toList.length ∧
      oc.toList.map (fun c => c.sequenceNumber)
        = List.range' s.sequenceNumber oc.toList.length := by
  match input with
  | none =>
    obtain ⟨rfl, rfl, rfl⟩ : b = true ∧ s = s1 ∧ (none : Option CChunk) = oc := by
      simpa [process] using h
    simp [List.range']
  | some channelData =>
    unfold process at h
    by_cases h0 : channelData.length = 0
    · obtain ⟨rfl, rfl, rfl⟩ : b = true ∧ s = s1 ∧ (none : Option CChunk) = oc := by
        simpa [h0] using h
      simp [List.range']
    · simp only [h0, if_false] at h
      match hacc : accumulateAudio s channelData with
      | none => rw [hacc] at h; exact absurd h (by simp)
      | some sa =>
        rw [hacc] at h
        have hseq := accumulateAudio_sequenceNumber s channelData sa hacc
        by_cases hsend : shouldSendChunk sa
        · simp only [hsend, if_true] at h
          obtain ⟨rfl, hpair⟩ : b = true ∧ sendAudioChunk sa = (s1, oc) := by
            simpa using h
          have hsc := sendAudioChunk_sequenceNumber sa
          rw [hpair, hseq] at hsc
          simpa using hsc
        · simp only [hsend, if_false] at h
          obtain ⟨rfl, rfl, rfl⟩ : b = true ∧ sa = s1 ∧ (none : Option CChunk) = oc := by
            simpa using h
          simp [hseq, List.range']

/-- Over a whole session the emitted chunks carry consecutive sequence
numbers starting at the initial counter. -/
theorem runProcess_sequenceNumber :
    ∀ (ins : List (Option (List (List ℚ)))) (s s2 : CState) (chunks : List CChunk),
      runProcess s ins = some (s2, chunks) →
      chunks.map (fun c => c.sequenceNumber) = List.range' s.sequenceNumber chunks.length ∧
        s2.sequenceNumber = s.sequenceNumber + chunks.length
  | [], s, s2, chunks, h => by
    obtain ⟨rfl, rfl⟩ : s = s2 ∧ ([] : List CChunk) = chunks := by
      simpa [runProcess] using h
    simp [List.range']
  | input :: rest, s, s2, chunks, h => by
    rw [runProcess, Option.bind_eq_some] at h
    obtain ⟨⟨b, s1, oc⟩, hp, h⟩ := h
    dsimp only at h
    rw [Option.map_eq_some'] at h
    obtain ⟨⟨s3, chunks1⟩, hr, heq⟩ := h
    cases heq
    dsimp only
    obtain ⟨hstep1, hstep2⟩ := process_sequenceNumber s input b s1 oc hp
    obtain ⟨ih1, ih2⟩ := runProcess_sequenceNumber rest s1 s3 chunks1 hr
    constructor
    · rw [List.map_append, hstep2, ih1, hstep1, List.length_append]
      rw [show oc.toList.length + chunks1.length
          = chunks1.length + oc.toList.length by omega]
      exact List.range'_append_1 _ _ _
    · rw [ih2, hstep1, List.length_append]; omega

end Capture

/-- C2: within one session starting from the constructor state, the emitted
chunks carry sequence numbers `0, 1, 2, …` in emission order: a strictly
increasing, gap-free sequence starting at 0. -/
theorem session_sequence_numbers (cs sr : ℕ) (t0 : ℚ)
    (ins : List (Option (List (List ℚ)))) (s2 : Capture.CState)
    (chunks : List Capture.CChunk)
    (h : Capture.runProcess (Capture.initState cs sr t0) ins = some (s2, chunks)) :
    chunks.map (fun c => c.sequenceNumber) = List.range chunks.length := by
  have := (Capture.runProcess_sequenceNumber ins _ s2 chunks h).1
  rw [this, List.range_eq_range']
  rfl

namespace Capture

/-- A concrete two-callback session with chunk size 1: two chunks emitted. -/
def w2Ins : List (Option (List (List ℚ))) := [some [[3/4]], some [[1/2]]]

/-- The result of running that session from the constructor state. -/
noncomputable def w2Run : CState × List CChunk :=
  (runProcess (initState 1 48000 0) w2Ins).getD default

end Capture

/-- Witness for C2: the concrete session's chunks carry `0, 1, …`. -/
theorem session_sequence_numbers_witness :
    Capture.w2Run.2.map (fun c => c.sequenceNumber) = List.range Capture.w2Run.2.length :=
  session_sequence_numbers 1 48000 0 Capture.w2Ins Capture.w2Run.1 Capture.w2Run.2 rfl

/-- C7: a callback with missing input (`inputs[0]` undefined) or an input with
zero channels returns `true` and leaves the accumulator state untouched; no
chunk is emitted and no synthetic silence is inserted. -/
theorem process_empty_input (s : Capture.CState) :
    Capture.process s none = some (true, s, none) ∧
      Capture.process s (some []) = some (true, s, none) := by
  constructor <;> rfl

namespace Capture

/-- A channel of 2048 alternating samples `[0.5, -0.5, 0.5, -0.5, …]`. -/
def altChannel : List ℚ :=
  (List.range 2048).map (fun i => if i % 2 = 0 then (1 : ℚ)/2 else -(1/2))

theorem altChannel_sq :
    altChannel.map (fun s => s * s) = List.replicate 2048 (1/4 : ℚ) := by
  unfold altChannel
  rw [List.map_map]
  have hc : ∀ i ∈ List.range 2048,
      ((fun s => s * s) ∘ fun i => if i % 2 = 0 then (1 : ℚ)/2 else -(1/2)) i
        = (fun _ => (1/4 : ℚ)) i := by
    intro i _
    by_cases h : i % 2 = 0 <;> simp [Function.comp, h] <;> norm_num
  rw [List.map_congr_left hc, List.map_const']
  simp

theorem altChannel_length : altChannel.length = 2048 := by
  simp [altChannel]

theorem rms_alternating : calculateRMS altChannel = 1/2 := by
  unfold calculateRMS
  rw [altChannel_sq, List.sum_replicate, altChannel_length]
  rw [show ((2048 : ℕ) • (1/4 : ℚ)) = 512 by norm_num]
  rw [show (((512 : ℚ) : ℝ) / ((2048 : ℕ) : ℝ)) = (1/2 : ℝ)^2 by norm_num]
  rw [Real.sqrt_sq (by norm_num : (0:ℝ) ≤ 1/2)]

theorem peak_step_eq_max (a c : ℚ) : (if c > a then c else a) = max a c := by
  by_cases h : a < c
  · rw [if_pos h, max_eq_right h.le]
  · rw [if_neg h, max_eq_left (not_lt.mp h)]

/-- The running-maximum loop of `calculatePeak` over a list whose members all
have the same absolute value. -/
theorem foldl_peak_all_eq (c : ℚ) :
    ∀ (l : List ℚ) (a : ℚ), (∀ x ∈ l, |x| = c) →
      l.foldl (fun peak s => if |s| > peak then |s| else peak) a
        = if l = [] then a else max a c
  | [], a, _ => by simp
  | x :: xs, a, h => by
    have hx : |x| = c := h x (by simp)
    have hrec := foldl_peak_all_eq c xs (if |x| > a then |x| else a)
      (fun y hy => h y (by simp [hy]))
    simp only [List.foldl_cons] at *
    rw [hrec, hx, peak_step_eq_max]
    by_cases hxs : xs = [] <;> simp [hxs, max_assoc]

theorem altChannel_abs : ∀ x ∈ altChannel, |x| = 1/2 := by
  intro x hx
  simp only [altChannel, List.mem_map, List.mem_range] at hx
  obtain ⟨i, -, rfl⟩ := hx
  by_cases h : i % 2 = 0
  · rw [if_pos h, abs_of_nonneg (by norm_num)]
  · rw [if_neg h, abs_neg, abs_of_nonneg (by norm_num)]

theorem peak_alternating : calculatePeak altChannel = 1/2 := by
  unfold calculatePeak
  rw [foldl_peak_all_eq (1/2) altChannel 0 altChannel_abs]
  have hne : altChannel ≠ [] := by
    intro h
    have := altChannel_length
    rw [h] at this
    simp at this
  rw [if_neg hne, max_eq_right (by norm_num : (0:ℚ) ≤ 1/2)]

end Capture

/-- C4: `calculateRMS` / `calculatePeak` evaluate the claimed
`sqrt(mean(sample²))` and `max(|sample|)` formulas; on a channel of 2048
alternating samples `±0.5` both return exactly `0.5`. -/
theorem metrics_alternating_channel :
    Capture.calculateRMS Capture.altChannel = 1/2 ∧
      Capture.calculatePeak Capture.altChannel = 1/2 :=
  ⟨Capture.rms_alternating, Capture.peak_alternating⟩

namespace Capture

/-- Length preservation of the per-channel push loop. -/
theorem appendFrames_length (cd : List (List ℚ)) (fl : ℕ) :
    ∀ (k : ℕ) (bufs : List (List ℚ)), (appendFrames cd fl k bufs).length = bufs.length
  | _, [] => rfl
  | k, _ :: rest => by
    simp only [appendFrames, List.length_cons, appendFrames_length cd fl (k + 1) rest]

/-- A mono-initialized accumulator state (one channel buffered). -/
def monoState : CState :=
  { chunkSize := 2048
    sampleRate := 48000
    chunkBuffer := [[0]]
    sequenceNumber := 0
    totalSamplesProcessed := 1
    startTime := 0
    lastChunkTime := 0
    currentTime := 1 }

/-- A stereo frame arriving at the mono-initialized state. -/
def stereoInput : List (List ℚ) := [[0], [0]]

/-- A stereo-initialized accumulator state (two channels buffered). -/
def stereoState : CState :=
  { chunkSize := 2048
    sampleRate := 48000
    chunkBuffer := [[0], [0]]
    sequenceNumber := 0
    totalSamplesProcessed := 1
    startTime := 0
    lastChunkTime := 0
    currentTime := 1 }

/-- A mono frame arriving at the stereo-initialized state. -/
def monoInput : List (List ℚ) := [[0]]

end Capture

/-- C5 counterexample: after buffers were initialized for one channel, a
two-channel frame makes `accumulateAudio` fail (the push into the missing
second buffer throws), contradicting "does not fail: it reinitializes its
per-channel buffers … and the pipeline continues". -/
theorem accumulate_channel_growth_fails :
    Capture.accumulateAudio Capture.monoState Capture.stereoInput = none := rfl

/-- C5 amended: once buffers are initialized, a frame with MORE channels than
buffered makes `accumulateAudio` fail (no reinitialization, no discontinuity
counter), while a frame with at most as many channels keeps the old buffer
layout (the buffers are appended to, never reinitialized for the new count). -/
theorem accumulate_channel_change (s : Capture.CState) (input : List (List ℚ))
    (hbuf : s.chunkBuffer ≠ []) (hin : input ≠ []) :
    (s.chunkBuffer.length < input.length →
        Capture.accumulateAudio s input = none) ∧
      (input.length ≤ s.chunkBuffer.length →
        (Capture.accumulateAudio s input).map (fun s1 => s1.chunkBuffer.length)
          = some s.chunkBuffer.length) := by
  match input with
  | [] => exact absurd rfl hin
  | ch0 :: rest =>
    have hlen0 : ¬ s.chunkBuffer.length = 0 := by
      simpa [List.length_eq_zero] using hbuf
    constructor
    · intro hlt
      simp only [Capture.accumulateAudio]
      rw [if_neg hlen0, if_neg (by simpa using not_le.mpr hlt)]
    · intro hle
      simp only [Capture.accumulateAudio]
      rw [if_neg hlen0, if_pos (by simpa using hle)]
      simp [Capture.appendFrames_length]

/-- Witness for the amended C5: a one-channel frame at the stereo-initialized
state keeps both buffers (count unchanged, not reinitialized). -/
theorem accumulate_channel_change_witness :
    Capture.stereoState.chunkBuffer ≠ [] ∧ Capture.monoInput ≠ [] ∧
      (Capture.monoInput.length ≤ Capture.stereoState.chunkBuffer.length →
        (Capture.accumulateAudio Capture.stereoState Capture.monoInput).map
            (fun s1 => s1.chunkBuffer.length)
          = some Capture.stereoState.chunkBuffer.length) :=
  ⟨by simp [Capture.stereoState], by simp [Capture.monoInput],
    (accumulate_channel_change Capture.stereoState Capture.monoInput
      (by simp [Capture.stereoState]) (by simp [Capture.monoInput])).2⟩

namespace Offscreen

/-- The wire `AudioChunkContract` as the offscreen consumer receives it.
Required fields are structurally present in a record value (the validator's
field-presence loop is the always-true branch here); `rmsLevel` / `peakLevel`
stay optional; `sequenceNumber` is an integer-valued JS number, so
`Number.isInteger` is carried by the type `ℤ`. -/
structure AudioChunkContract where
  samples : List (List ℚ)
  sampleRate : ℕ
  channels : ℕ
  frameLength : ℕ
  timestamp : ℚ
  chunkId : String
  sequenceNumber : ℤ
  rmsLevel : Option ℚ
  peakLevel : Option ℚ
  deriving Repr

/-- The per-sample range test of the validator: not NaN (no ℚ counterpart)
and inside `[-1.0, 1.0]`. -/
def validSample (x : ℚ) : Bool :=
  decide (-1 ≤ x) && decide (x ≤ 1)

/-- `validateChunkContract` (offscreen consumer side): the full deep check.
Each `&&` factor is one early-`return false` site of the source, in source
order.  Note the timestamp check: the source rejects `timestamp < 0` only. -/
def validateChunkContract (c : AudioChunkContract) : Bool :=
  decide (c.sampleRate = 48000) &&
  decide (c.frameLength = 2048) &&
  decide (c.samples.length ≠ 0) &&
  c.samples.all (fun ch => decide (ch.length = 2048) && ch.all validSample) &&
  decide (c.channels = c.samples.length) &&
  decide (0 ≤ c.timestamp) &&
  decide (c.chunkId.length ≠ 0) &&
  decide (0 ≤ c.sequenceNumber) &&
  (match c.rmsLevel with
    | none => true
    | some r => decide (0 ≤ r) && decide (r ≤ 1)) &&
  (match c.peakLevel with
    | none => true
    | some p => decide (0 ≤ p) && decide (p ≤ 1))

/-- Observable state of `OffscreenAudioProcessor.handleAudioChunk`. -/
structure OState where
  chunksReceived : ℕ
  startTime : ℚ
  deriving Repr

/-- `handleAudioChunk`: count the chunk, validate it, and forward it to
`sendToPhase2` only when validation passes; an invalid chunk is dropped with
no further effect.  The `Bool` records whether `sendToPhase2` was called. -/
def handleAudioChunk (s : OState) (c : AudioChunkContract) : OState × Bool :=
  let s1 : OState := { s with chunksReceived := s.chunksReceived + 1 }
  if validateChunkContract c then (s1, true) else (s1, false)

theorem all_replicate_of_holds {α : Type} (p : α → Bool) (n : ℕ) (a : α)
    (h : p a = true) : (List.replicate n a).all p = true := by
  induction n with
  | zero => rfl
  | succ k ih => simp only [List.replicate_succ, List.all_cons, h, ih, Bool.and_self]

/-- Any stack of all-zero 2048-sample channels passes the per-channel scan. -/
theorem zeros_samples_ok (m : ℕ) :
    (List.replicate m (List.replicate 2048 (0:ℚ))).all
      (fun ch => decide (ch.length = 2048) && ch.all validSample) = true := by
  apply all_replicate_of_holds
  have hall : (List.replicate 2048 (0:ℚ)).all validSample = true :=
    all_replicate_of_holds validSample 2048 0 (by decide)
  simp only [List.length_replicate, hall]
  rfl

/-- A fully valid stereo chunk of 2048 zero samples per channel. -/
def goodChunk : AudioChunkContract :=
  { samples := List.replicate 2 (List.replicate 2048 (0 : ℚ))
    sampleRate := 48000
    channels := 2
    frameLength := 2048
    timestamp := 5
    chunkId := "chunk_5_ok"
    sequenceNumber := 0
    rmsLevel := some 0
    peakLevel := some 0 }

theorem validate_goodChunk : validateChunkContract goodChunk = true := by
  unfold validateChunkContract
  simp only [goodChunk]
  rw [zeros_samples_ok 2]
  rfl

/-- The same chunk declaring `sampleRate = 44100`. -/
def badRateChunk : AudioChunkContract := { goodChunk with sampleRate := 44100 }

end Offscreen

/-- C3: a chunk whose declared sample rate differs from the configured 48000
fails full validation and is dropped by `handleAudioChunk` without being
forwarded to `sendToPhase2`; a valid chunk handled right after it is still
forwarded, so the pipeline is not halted. -/
theorem wrong_sample_rate_dropped (s : Offscreen.OState)
    (c c2 : Offscreen.AudioChunkContract)
    (h : c.sampleRate ≠ 48000) (h2 : Offscreen.validateChunkContract c2 = true) :
    Offscreen.validateChunkContract c = false ∧
      (Offscreen.handleAudioChunk s c).2 = false ∧
      (Offscreen.handleAudioChunk (Offscreen.handleAudioChunk s c).1 c2).2 = true := by
  have hval : Offscreen.validateChunkContract c = false := by
    unfold Offscreen.validateChunkContract
    simp [h]
  refine ⟨hval, ?_, ?_⟩
  · simp [Offscreen.handleAudioChunk, hval]
  · simp [Offscreen.handleAudioChunk, h2]

/-- Witness for C3: the concrete 44100-Hz chunk is dropped and the concrete
valid chunk that follows it is forwarded. -/
theorem wrong_sample_rate_dropped_witness :
    Offscreen.validateChunkContract Offscreen.badRateChunk = false ∧
      (Offscreen.handleAudioChunk ⟨0, 0⟩ Offscreen.badRateChunk).2 = false ∧
      (Offscreen.handleAudioChunk
          (Offscreen.handleAudioChunk ⟨0, 0⟩ Offscreen.badRateChunk).1
          Offscreen.goodChunk).2 = true :=
  wrong_sample_rate_dropped ⟨0, 0⟩ Offscreen.badRateChunk Offscreen.goodChunk
    (by decide) Offscreen.validate_goodChunk

namespace Offscreen

/-- `goodChunk` with `timestamp = 0`. -/
def zeroTsChunk : AudioChunkContract := { goodChunk with timestamp := 0 }

theorem validate_zeroTsChunk : validateChunkContract zeroTsChunk = true := by
  unfold validateChunkContract
  simp only [zeroTsChunk, goodChunk]
  rw [zeros_samples_ok 2]
  rfl

end Offscreen

/-- C6 counterexample: a chunk with `timestamp = 0` (hence `timestamp ≤ 0`)
passes full validation — the source rejects `timestamp < 0` only, so the
claim "fails for any chunk with timestamp ≤ 0, including exactly 0" is
false. -/
theorem zero_timestamp_validates :
    Offscreen.zeroTsChunk.timestamp ≤ 0 ∧
      Offscreen.validateChunkContract Offscreen.zeroTsChunk = true :=
  ⟨le_refl 0, Offscreen.validate_zeroTsChunk⟩

/-- C6 amended: full validation fails for every chunk whose timestamp is
strictly negative; a timestamp of exactly 0 passes the timestamp check. -/
theorem negative_timestamp_fails (c : Offscreen.AudioChunkContract)
    (h : c.timestamp < 0) : Offscreen.validateChunkContract c = false := by
  have hn : ¬ (0 ≤ c.timestamp) := not_le.mpr h
  unfold Offscreen.validateChunkContract
  simp [hn]

namespace Offscreen

/-- `goodChunk` with `timestamp = -1`. -/
def negTsChunk : AudioChunkContract := { goodChunk with timestamp := -1 }

end Offscreen

/-- Witness for the amended C6: the concrete chunk with timestamp `-1` fails
validation. -/
theorem negative_timestamp_fails_witness :
    Offscreen.negTsChunk.timestamp < 0 ∧
      Offscreen.validateChunkContract Offscreen.negTsChunk = false :=
  ⟨by norm_num [Offscreen.negTsChunk, Offscreen.goodChunk],
    negative_timestamp_fails Offscreen.negTsChunk
      (by norm_num [Offscreen.negTsChunk, Offscreen.goodChunk])⟩

namespace Offscreen

/-- A three-channel chunk of 2048 in-range samples per channel, all other
required fields valid. -/
def threeChannelChunk : AudioChunkContract :=
  { samples := List.replicate 3 (List.replicate 2048 (0 : ℚ))
    sampleRate := 48000
    channels := 3
    frameLength := 2048
    timestamp := 7
    chunkId := "chunk_7_3ch"
    sequenceNumber := 2
    rmsLevel := none
    peakLevel := none }

end Offscreen

/-- C10: full validation does not restrict the channel count to 1 or 2 — a
chunk with `channels = 3` and three sequences of 2048 in-range samples
passes `validateChunkContract`. -/
theorem three_channel_chunk_validates :
    Offscreen.threeChannelChunk.channels = 3 ∧
      Offscreen.validateChunkContract Offscreen.threeChannelChunk = true := by
  refine ⟨rfl, ?_⟩
  unfold Offscreen.validateChunkContract
  simp only [Offscreen.threeChannelChunk]
  rw [Offscreen.zeros_samples_ok 3]
  rfl

namespace Background

/-- A captured `MediaStream` as far as `TabCaptureManager` observes it. -/
structure MediaStream where
  id : String
  active : Bool
  deriving Repr, DecidableEq

/-- The mutable state of `TabCaptureManager`. -/
structure MState where
  currentStream : Option MediaStream
  currentTabId : Option ℤ
  offscreenDocumentExists : Bool
  deriving Repr, DecidableEq

/-- `stopCapture`: stop the stream's tracks when one is held, null both the
stream reference and the tab id, optionally notify the offscreen document
(a message send with no manager-state effect, wrapped in try/catch).  The
function never throws. -/
def stopCapture (s : MState) : MState :=
  { s with currentStream := none, currentTabId := none }

/-- The record returned by `getCaptureStatus`. -/
structure CaptureStatus where
  isCapturing : Bool
  tabId : Option ℤ
  streamId : Option String
  deriving Repr, DecidableEq

/-- `getCaptureStatus`: `isCapturing` is `currentStream !== null &&
currentStream.active`; `streamId` is `currentStream?.id || null`, so an empty
id string is coerced to `null`. -/
def getCaptureStatus (s : MState) : CaptureStatus :=
  { isCapturing := s.currentStream.isSome &&
      ((s.currentStream.map (fun st => st.active)).getD false)
    tabId := s.currentTabId
    streamId := match s.currentStream with
      | none => none
      | some st => if st.id.length = 0 then none else some st.id }

end Background

/-- C8: `stopCapture` is idempotent — from any state a second call raises no
error (it is a total function) and yields the same terminal state as the
first: stream reference null, tab id null, `getCaptureStatus.isCapturing`
false. -/
theorem stopCapture_idempotent (s : Background.MState) :
    Background.stopCapture (Background.stopCapture s) = Background.stopCapture s ∧
      (Background.stopCapture s).currentStream = none ∧
      (Background.stopCapture s).currentTabId = none ∧
      (Background.getCaptureStatus (Background.stopCapture s)).isCapturing = false := by
  refine ⟨rfl, rfl, rfl, ?_⟩
  simp [Background.getCaptureStatus, Background.stopCapture]

namespace Delivery

/-!
Modelled from the spec: the Delivery Channel's bounded message queue does not
exist under `src/` — only its capacity (`SystemConfig.messageQueueSize`,
default 100, `src/shared/config-types.ts`) is declared there, and the
offscreen `sendToPhase2` forwarding is a logging stub.  The queue below
follows §4.3 of the specification: FIFO order, bounded capacity, and a
configurable overflow policy of drop-oldest or reject-newest.
-/

/-- Modelled from the spec: the configurable overflow policy. -/
inductive OverflowPolicy where
  | dropOldest
  | rejectNewest
  deriving Repr, DecidableEq

/-- Modelled from the spec: one enqueue into the bounded queue.  Below
capacity the message is appended (FIFO); at capacity the configured overflow
policy fires — drop-oldest discards the head to admit the new message,
reject-newest discards the new message.  The `Bool` reports whether the
overflow policy fired. -/
def enqueue (pol : OverflowPolicy) (cap : ℕ) (q : List ℕ) (m : ℕ) :
    List ℕ × Bool :=
  if q.length < cap then (q ++ [m], false)
  else match pol with
    | .dropOldest => (q.tail ++ [m], true)
    | .rejectNewest => (q, true)

/-- Modelled from the spec: a fully blocked consumer — messages are enqueued
one after another with no dequeue, counting overflow-policy firings. -/
def enqueueAll (pol : OverflowPolicy) (cap : ℕ) :
    List ℕ × ℕ → List ℕ → List ℕ × ℕ
  | acc, [] => acc
  | (q, k), m :: ms =>
    let r := enqueue pol cap q m
    enqueueAll pol cap (r.1, k + (if r.2 then 1 else 0)) ms

theorem enqueue_length_le (pol : OverflowPolicy) (cap : ℕ) (q : List ℕ) (m : ℕ)
    (hcap : 0 < cap) (h : q.length ≤ cap) :
    (enqueue pol cap q m).1.length ≤ cap := by
  unfold enqueue
  by_cases hlt : q.length < cap
  · rw [if_pos hlt]
    simp only [List.length_append, List.length_cons, List.length_nil]
    omega
  · rw [if_neg hlt]
    have hq : q.length = cap := le_antisymm h (not_lt.mp hlt)
    cases pol
    · simp only [List.length_append, List.length_tail, List.length_cons,
        List.length_nil]
      omega
    · exact h

theorem enqueueAll_length_le (pol : OverflowPolicy) (cap : ℕ) (hcap : 0 < cap) :
    ∀ (ms : List ℕ) (q : List ℕ) (k : ℕ), q.length ≤ cap →
      (enqueueAll pol cap (q, k) ms).1.length ≤ cap
  | [], q, k, h => h
  | m :: ms, q, k, h => by
    rw [enqueueAll]
    exact enqueueAll_length_le pol cap hcap ms _ _
      (enqueue_length_le pol cap q m hcap h)

theorem enqueueAll_no_overflow (pol : OverflowPolicy) (cap : ℕ) :
    ∀ (ms : List ℕ) (q : List ℕ) (k : ℕ), q.length + ms.length ≤ cap →
      enqueueAll pol cap (q, k) ms = (q ++ ms, k)
  | [], q, k, _ => by simp [enqueueAll]
  | m :: ms, q, k, h => by
    rw [enqueueAll]
    have hlt : q.length < cap := by
      simp only [List.length_cons] at h
      omega
    simp only [enqueue, hlt, if_true, Bool.false_eq_true, if_false, Nat.add_zero]
    rw [enqueueAll_no_overflow pol cap ms (q ++ [m]) k
      (by
        simp only [List.length_cons] at h
        simp only [List.length_append, List.length_cons, List.length_nil]
        omega)]
    simp

theorem enqueueAll_append (pol : OverflowPolicy) (cap : ℕ) :
    ∀ (xs ys : List ℕ) (acc : List ℕ × ℕ),
      enqueueAll pol cap acc (xs ++ ys)
        = enqueueAll pol cap (enqueueAll pol cap acc xs) ys
  | [], ys, acc => by simp [enqueueAll]
  | x :: xs, ys, (q, k) => by
    rw [List.cons_append, enqueueAll, enqueueAll]
    exact enqueueAll_append pol cap xs ys _

end Delivery

/-- C9 (delivery queue modelled from the spec; only its capacity
configuration exists under `src/`): with capacity `cap > 0` and a fully
blocked consumer, enqueuing `cap + 1` chunks fires the configured overflow
policy exactly once, and no prefix of the run ever holds more than `cap`
queued messages. -/
theorem queue_bounded_overflow_once (pol : Delivery.OverflowPolicy) (cap : ℕ)
    (msgs : List ℕ) (hcap : 0 < cap) (hlen : msgs.length = cap + 1) :
    (Delivery.enqueueAll pol cap ([], 0) msgs).2 = 1 ∧
      ∀ k : ℕ, (Delivery.enqueueAll pol cap ([], 0) (msgs.take k)).1.length ≤ cap := by
  constructor
  · have hsplit : msgs = msgs.take cap ++ msgs.drop cap := (List.take_append_drop cap msgs).symm
    have htake : (msgs.take cap).length = cap := by
      rw [List.length_take]
      omega
    have hdrop : (msgs.drop cap).length = 1 := by
      rw [List.length_drop]
      omega
    obtain ⟨m, hm⟩ := List.length_eq_one.mp hdrop
    rw [hsplit, Delivery.enqueueAll_append,
      Delivery.enqueueAll_no_overflow pol cap (msgs.take cap) [] 0 (by simp [htake]), hm]
    have hfull : ¬ ((([] : List ℕ) ++ msgs.take cap).length < cap) := by
      simp [htake]
    have hnotlt : ¬ msgs.length < cap := by omega
    rw [Delivery.enqueueAll]
    cases pol <;> simp [Delivery.enqueue, Delivery.enqueueAll, hfull, hnotlt]
  · intro k
    exact Delivery.enqueueAll_length_le pol cap hcap (msgs.take k) [] 0 (by simp)

/-- Witness for C9: capacity 2, three messages, drop-oldest policy — the
policy fires exactly once and every prefix stays within capacity. -/
theorem queue_bounded_overflow_once_witness :
    (0 < 2 ∧ ([7, 8, 9] : List ℕ).length = 2 + 1) ∧
      (Delivery.enqueueAll Delivery.OverflowPolicy.dropOldest 2 ([], 0) [7, 8, 9]).2 = 1 ∧
      ∀ k : ℕ, (Delivery.enqueueAll Delivery.OverflowPolicy.dropOldest 2
          (([] : List ℕ), 0) (([7, 8, 9] : List ℕ).take k)).1.length ≤ 2 :=
  ⟨⟨by decide, by decide⟩,
    queue_bounded_overflow_once Delivery.OverflowPolicy.dropOldest 2 [7, 8, 9]
      (by decide) (by decide)⟩

